import Mathlib

/-!
Verification development for the `simple-events-handler` repository.

The Go sources are shallowly embedded below.  Strings handled at the byte
level (URL unescaping, time parsing) are modelled as `List Char`, with each
`Char` standing for one byte; all inputs of interest are ASCII, where the
two notions coincide.

Embedded units (file, function → Lean definition):
  internal/server/routes.go  parseTimeFlexible  → `parseTimeFlexible`
  internal/server/routes.go  AddEventRequest.Validate → `AddEventRequest.Validate`
  internal/server/routes.go  GetEventsRequest.Validate → `GetEventsRequest.Validate`
  internal/server/routes.go  AddEventHandler    → `AddEventHandler`
  internal/server/routes.go  GetEventsHandler   → `GetEventsHandler`
  internal/database (service) InsertEvent       → `InsertEvent`
  internal/database (service) GetEvents          → `GetEvents`
  internal/database (service) AggregateEvents    → `AggregateEvents`
  internal/aggregator/aggregator.go New          → `aggregatorNewInterval`
Library functions the code calls (net/url.QueryUnescape, strings.TrimSpace,
time.Parse for the five layouts appearing in the source, strconv.Atoi,
strconv.ParseInt) are modelled from their Go semantics, since the Go code's
behaviour depends on them.
-/

/-- Instant produced by Go `time.Parse`: seconds since the Unix epoch (UTC)
together with the nanosecond part.  Go `time.Time` comparisons (`After`,
`Before`) on parsed values compare exactly this pair. -/
structure GoTime where
  sec : Int
  nsec : Nat
deriving DecidableEq, Repr

/-- Total nanoseconds since the Unix epoch; `After`/ordering comparisons on
`GoTime` are comparisons of this value. -/
def GoTime.toNanos (t : GoTime) : Int :=
  t.sec * 1000000000 + (t.nsec : Int)

/-- Go `t.Add (-seconds * time.Second)` for a whole number of seconds. -/
def GoTime.subSec (t : GoTime) (s : Nat) : GoTime :=
  ⟨t.sec - (s : Int), t.nsec⟩

/-- Numeric value of an ASCII decimal digit. -/
def digitVal (c : Char) : Option Nat :=
  if '0' ≤ c ∧ c ≤ '9' then some (c.toNat - 48) else none

/-- Go `getnum(s, true)`: exactly two decimal digits. -/
def num2 : List Char → Option (Nat × List Char)
  | c1 :: c2 :: rest =>
    match digitVal c1, digitVal c2 with
    | some d1, some d2 => some (10 * d1 + d2, rest)
    | _, _ => none
  | _ => none

/-- Go `getnum(s, false)`: one or two decimal digits (two when the second
character is also a digit). -/
def num12 : List Char → Option (Nat × List Char)
  | c1 :: c2 :: rest =>
    match digitVal c1, digitVal c2 with
    | some d1, some d2 => some (10 * d1 + d2, rest)
    | some d1, none => some (d1, c2 :: rest)
    | none, _ => none
  | [c1] =>
    match digitVal c1 with
    | some d1 => some (d1, [])
    | none => none
  | [] => none

/-- Go `stdLongYear`: exactly four decimal digits. -/
def num4 : List Char → Option (Nat × List Char)
  | c1 :: c2 :: c3 :: c4 :: rest =>
    match digitVal c1, digitVal c2, digitVal c3, digitVal c4 with
    | some d1, some d2, some d3, some d4 =>
      some (1000 * d1 + 100 * d2 + 10 * d3 + d4, rest)
    | _, _, _, _ => none
  | _ => none

/-- Consume one expected literal character of a layout. -/
def lit (c : Char) : List Char → Option (List Char)
  | x :: rest => if x = c then some rest else none
  | [] => none

/-- Gregorian leap-year rule, as in Go `isLeap`. -/
def isLeap (y : Nat) : Bool :=
  y % 4 = 0 && (y % 100 ≠ 0 || y % 400 = 0)

/-- Number of days in a month (1..12), as in Go `daysIn`. -/
def daysIn (m y : Nat) : Nat :=
  if m = 2 then (if isLeap y then 29 else 28)
  else if m = 4 ∨ m = 6 ∨ m = 9 ∨ m = 11 then 30
  else 31

/-- Days in the months strictly before month `m` of a year with the given
leap flag. -/
def monthDaysBefore (m : Nat) (leap : Bool) : Nat :=
  let base :=
    match m with
    | 1 => 0 | 2 => 31 | 3 => 59 | 4 => 90 | 5 => 120 | 6 => 151
    | 7 => 181 | 8 => 212 | 9 => 243 | 10 => 273 | 11 => 304 | _ => 334
  if leap ∧ m > 2 then base + 1 else base

/-- Day count of a proleptic-Gregorian civil date from 0000-01-01. -/
def daysFromYear0 (y m d : Nat) : Nat :=
  365 * y + (y + 3) / 4 - (y + 99) / 100 + (y + 399) / 400 +
    monthDaysBefore m (isLeap y) + (d - 1)

/-- Unix seconds of a civil date-time interpreted in UTC.  `719528` is the
day count of 1970-01-01 from year 0. -/
def civilToSec (y m d h mi s : Nat) : Int :=
  ((daysFromYear0 y m d : Int) - 719528) * 86400 +
    (h : Int) * 3600 + (mi : Int) * 60 + (s : Int)

/-- Fractional-second handling of Go `time.parse`: after the seconds field,
a period or comma followed by at least one digit is consumed; the first nine
digits scale to nanoseconds (further digits are consumed and discarded). -/
def parseFrac : List Char → Nat × List Char
  | c :: d :: rest =>
    if (c = '.' ∨ c = ',') ∧ (digitVal d).isSome then
      let digs := (d :: rest).takeWhile (fun x => (digitVal x).isSome)
      let rem := (d :: rest).dropWhile (fun x => (digitVal x).isSome)
      let first9 := digs.take 9
      let v := first9.foldl (fun acc x => 10 * acc + ((digitVal x).getD 0)) 0
      (v * 10 ^ (9 - first9.length), rem)
    else (0, c :: d :: rest)
  | s => (0, s)

/-- Zone suffix `Z07:00` of the RFC 3339 layouts, per Go `stdISO8601ColonTZ`:
a literal `Z`, or a sign followed by `hh:mm`.  Returns the offset east of
UTC in seconds and the remaining input. -/
def parseZone : List Char → Option (Int × List Char)
  | 'Z' :: rest => some (0, rest)
  | sign :: h1 :: h2 :: c :: m1 :: m2 :: rest =>
    if (sign = '+' ∨ sign = '-') ∧ c = ':' then
      match digitVal h1, digitVal h2, digitVal m1, digitVal m2 with
      | some a, some b, some x, some y =>
        let off : Int := ((10 * a + b) * 60 + (10 * x + y)) * 60
        some (if sign = '-' then -off else off, rest)
      | _, _, _, _ => none
    else none
  | _ => none

/-- Parse the `2006-01-02` date part: four-digit year, `-`, two-digit month,
`-`, two-digit day. -/
def parseDatePart (s : List Char) : Option (Nat × Nat × Nat × List Char) := do
  let (y, s) ← num4 s
  let s ← lit '-' s
  let (mo, s) ← num2 s
  let s ← lit '-' s
  let (d, s) ← num2 s
  pure (y, mo, d, s)

/-- Range checks Go `time.parse` applies to the parsed components. -/
def fieldsValid (y mo d h mi se : Nat) : Bool :=
  decide (1 ≤ mo) && decide (mo ≤ 12) && decide (1 ≤ d) &&
    decide (d ≤ daysIn mo y) && decide (h ≤ 23) && decide (mi ≤ 59) &&
    decide (se ≤ 59)

/-- Go `time.Parse` with layout `2006-01-02T15:04:05Z07:00` (RFC 3339) or
`2006-01-02T15:04:05.999999999Z07:00` (RFC 3339 with nanoseconds).  Both
layouts accept the same inputs with the same result: Go's parser consumes an
optional fractional second after the seconds field whether or not the layout
names one, and the nanosecond fraction of the Nano layout is itself
optional.  The hour field uses `getnum` in non-fixed mode (one or two
digits), minutes and seconds are fixed two-digit fields, and the zone is
`Z` or a signed `hh:mm` offset. -/
def parseRFC3339 (s : List Char) : Option GoTime := do
  let (y, mo, d, s) ← parseDatePart s
  let s ← lit 'T' s
  let (h, s) ← num12 s
  let s ← lit ':' s
  let (mi, s) ← num2 s
  let s ← lit ':' s
  let (se, s) ← num2 s
  let (ns, s) := parseFrac s
  let (off, s) ← parseZone s
  if s = [] ∧ fieldsValid y mo d h mi se then
    pure ⟨civilToSec y mo d h mi se - off, ns⟩
  else none

/-- Go `time.Parse` with layout `2006-01-02 15:04:05` (sep = space) or
`2006-01-02T15:04:05` (sep = `T`): no zone in the layout, so the result is
interpreted in UTC; an optional fractional second is accepted. -/
def parseDateTimeNoZone (sep : Char) (s : List Char) : Option GoTime := do
  let (y, mo, d, s) ← parseDatePart s
  let s ← lit sep s
  let (h, s) ← num12 s
  let s ← lit ':' s
  let (mi, s) ← num2 s
  let s ← lit ':' s
  let (se, s) ← num2 s
  let (ns, s) := parseFrac s
  if s = [] ∧ fieldsValid y mo d h mi se then
    pure ⟨civilToSec y mo d h mi se, ns⟩
  else none

/-- Go `time.Parse` with layout `2006-01-02`: the bare date, midnight UTC. -/
def parseDateOnly (s : List Char) : Option GoTime := do
  let (y, mo, d, s) ← parseDatePart s
  if s = [] ∧ fieldsValid y mo d 0 0 0 then
    pure ⟨civilToSec y mo d 0 0 0, 0⟩
  else none

/-- The five layout constants appearing in `parseTimeFlexible`'s `layouts`
slice in routes.go. -/
inductive Layout where
  | rfc3339
  | rfc3339Nano
  | dateSpaceTime
  | dateTTime
  | dateOnly
deriving DecidableEq, Repr

/-- Go `time.Parse(l, s)` for the five layouts used by the source. -/
def goTimeParse : Layout → List Char → Option GoTime
  | .rfc3339, s => parseRFC3339 s
  | .rfc3339Nano, s => parseRFC3339 s
  | .dateSpaceTime, s => parseDateTimeNoZone ' ' s
  | .dateTTime, s => parseDateTimeNoZone 'T' s
  | .dateOnly, s => parseDateOnly s

/-- The `layouts` slice of `parseTimeFlexible`, in source order. -/
def layouts : List Layout :=
  [.rfc3339, .rfc3339Nano, .dateSpaceTime, .dateTTime, .dateOnly]

/-- The loop `for _, l := range layouts { if t, err := time.Parse(l, uv); err == nil { return &t, nil } }`. -/
def firstSuccess : List Layout → List Char → Option GoTime
  | [], _ => none
  | l :: ls, s =>
    match goTimeParse l s with
    | some t => some t
    | none => firstSuccess ls s


/-- Hexadecimal digit value, as Go `unhex`. -/
def hexVal (c : Char) : Option Nat :=
  if '0' ≤ c ∧ c ≤ '9' then some (c.toNat - 48)
  else if 'a' ≤ c ∧ c ≤ 'f' then some (c.toNat - 97 + 10)
  else if 'A' ≤ c ∧ c ≤ 'F' then some (c.toNat - 65 + 10)
  else none

/-- Go `net/url.QueryUnescape`: replaces each `%XY` with the byte it names
and each `+` with a space; returns `none` (an `EscapeError`) when a `%` is
not followed by two hexadecimal digits.  Bytes are represented as `Char`s. -/
def QueryUnescape : List Char → Option (List Char)
  | [] => some []
  | '%' :: c1 :: c2 :: rest =>
    match hexVal c1, hexVal c2 with
    | some h1, some h2 =>
      match QueryUnescape rest with
      | some tail => some (Char.ofNat (16 * h1 + h2) :: tail)
      | none => none
    | _, _ => none
  | '%' :: _ => none
  | '+' :: rest =>
    match QueryUnescape rest with
    | some tail => some (' ' :: tail)
    | none => none
  | c :: rest =>
    match QueryUnescape rest with
    | some tail => some (c :: tail)
    | none => none

/-- ASCII whitespace recognised by Go `strings.TrimSpace`. -/
def isGoSpace (c : Char) : Bool :=
  c = ' ' ∨ c = '\t' ∨ c = '\n' ∨ c = '\x0b' ∨ c = '\x0c' ∨ c = '\r'

/-- Go `strings.TrimSpace` (ASCII fragment; every input the system handles
at this point is ASCII). -/
def TrimSpace (s : List Char) : List Char :=
  ((s.dropWhile isGoSpace).reverse.dropWhile isGoSpace).reverse

/-- The unescape loop of `parseTimeFlexible`: up to `fuel` rounds of
`QueryUnescape`, stopping early when a round fails or reaches a fixpoint,
and returning the string as decoded so far. -/
def decodeLoop : Nat → List Char → List Char
  | 0, uv => uv
  | n + 1, uv =>
    match QueryUnescape uv with
    | none => uv
    | some u => if u = uv then uv else decodeLoop n u

/-- Error produced by `parseTimeFlexible`: the two empty-input messages of
the source, or the unrecognized-format error. -/
inductive TimeParseError where
  | empty (msg : String)
  | unrecognized
deriving DecidableEq, Repr

/-- `GetEventsRequest.parseTimeFlexible` from routes.go: reject the empty
string, unescape up to three times (stopping on failure or fixpoint), trim
whitespace, reject an empty remainder, then try the five layouts in order
and return the first success. -/
def parseTimeFlexible (v : List Char) : Except TimeParseError GoTime :=
  if v = [] then .error (.empty "empty time string")
  else
    let uv := TrimSpace (decodeLoop 3 v)
    if uv = [] then .error (.empty "empty time after unescape")
    else
      match firstSuccess layouts uv with
      | some t => .ok t
      | none => .error .unrecognized

/-- Go `strconv.ParseInt(s, 10, 64)`: an optional single sign followed by at
least one decimal digit and nothing else, with the value required to fit in
a signed 64-bit integer.  `strconv.Atoi` is `ParseInt(s, 10, 0)` with the
platform int being 64-bit. -/
def goParseInt (s : List Char) : Option Int :=
  let core : List Char → Option Nat := fun ds =>
    if ds = [] ∨ ds.any (fun c => (digitVal c).isNone) then none
    else some (ds.foldl (fun acc c => 10 * acc + ((digitVal c).getD 0)) 0)
  match s with
  | '+' :: rest =>
    match core rest with
    | some n => if n ≤ 9223372036854775807 then some (n : Int) else none
    | none => none
  | '-' :: rest =>
    match core rest with
    | some n => if n ≤ 9223372036854775808 then some (-(n : Int)) else none
    | none => none
  | _ =>
    match core s with
    | some n => if n ≤ 9223372036854775807 then some (n : Int) else none
    | none => none

/-- Go `strconv.Atoi`. -/
def goAtoi (s : List Char) : Option Int := goParseInt s

instance {α β : Type} [DecidableEq α] [DecidableEq β] :
    DecidableEq (Except α β) := fun a b =>
  match a, b with
  | .ok x, .ok y => decidable_of_iff (x = y) (by simp)
  | .error x, .error y => decidable_of_iff (x = y) (by simp)
  | .ok _, .error _ => isFalse (by simp)
  | .error _, .ok _ => isFalse (by simp)


/-- A row of the `events` table, as in internal/database `Event`. -/
structure Event where
  id : Int
  user_id : Int
  action : String
  metadata_page : Option String
  created_at : GoTime
deriving DecidableEq, Repr

/-- A row of the `user_event_counts` table. -/
structure Bucket where
  user_id : Int
  period_start : GoTime
  period_end : GoTime
  event_count : Nat
deriving DecidableEq, Repr

/-- `service.InsertEvent`: appends one row whose id and creation time are
server-assigned; only the `page` key of the metadata map is persisted, in
the `metadata_page` column (a `nil` map is the empty association list). -/
def InsertEvent (tbl : List Event) (newId : Int) (now : GoTime)
    (userID : Int) (action : String) (metadata : List (String × String)) :
    List Event :=
  tbl ++ [⟨newId, userID, action, metadata.lookup "page", now⟩]

/-- Row filter of the `service.GetEvents` query: conjunction of the three
optional conditions `user_id = $1`, `created_at >= $2`, `created_at <= $3`,
each skipped when its parameter is NULL. -/
def eventMatches (userID : Option Int) (start stop : Option GoTime)
    (e : Event) : Bool :=
  (match userID with
   | none => true
   | some u => decide (e.user_id = u)) &&
  (match start with
   | none => true
   | some s => decide (s.toNanos ≤ e.created_at.toNanos)) &&
  (match stop with
   | none => true
   | some t => decide (e.created_at.toNanos ≤ t.toNanos))

/-- Insert an event into a list kept in descending `created_at` order. -/
def insertDesc (e : Event) : List Event → List Event
  | [] => [e]
  | x :: xs =>
    if e.created_at.toNanos ≤ x.created_at.toNanos then x :: insertDesc e xs
    else e :: x :: xs

/-- Sort events by `created_at` descending (`ORDER BY created_at DESC`). -/
def sortDesc (l : List Event) : List Event :=
  l.foldr insertDesc []

/-- `service.GetEvents`: the rows passing the filter, most recent first;
always a list (an empty result is the empty list, never an error). -/
def GetEvents (tbl : List Event) (userID : Option Int)
    (start stop : Option GoTime) : List Event :=
  sortDesc (tbl.filter (eventMatches userID start stop))

/-- Membership test of the half-open aggregation window
`created_at >= $1 AND created_at < $2`. -/
def inWindow (ps pe : GoTime) (e : Event) : Bool :=
  decide (ps.toNanos ≤ e.created_at.toNanos) &&
    decide (e.created_at.toNanos < pe.toNanos)

/-- `COUNT(*)` of one user's events inside the window. -/
def windowCount (events : List Event) (u : Int) (ps pe : GoTime) : Nat :=
  (events.filter (fun e => decide (e.user_id = u) && inWindow ps pe e)).length

/-- The distinct `user_id`s produced by `GROUP BY user_id` over the events
inside the window. -/
def usersInWindow (events : List Event) (ps pe : GoTime) : List Int :=
  ((events.filter (inWindow ps pe)).map (fun e => e.user_id)).dedup

/-- Key test of the `ON CONFLICT (user_id, period_start)` clause. -/
def bucketKeyIs (u : Int) (ps : GoTime) (b : Bucket) : Bool :=
  decide (b.user_id = u) && decide (b.period_start = ps)

/-- Effect of the upsert's `ON CONFLICT (user_id, period_start) DO UPDATE
SET event_count = EXCLUDED.event_count` on one existing summary row: only
`event_count` is replaced (the old `period_end` is kept), and only when the
row's key collides with a grouped row of the `SELECT`. -/
def updateBucket (events : List Event) (ps pe : GoTime) (b : Bucket) :
    Bucket :=
  if b.period_start = ps ∧ b.user_id ∈ usersInWindow events ps pe then
    { b with event_count := windowCount events b.user_id ps pe }
  else b

/-- Rows of the grouped `SELECT` whose `(user_id, period_start)` key is not
yet present in the summary table: inserted as new rows by the upsert. -/
def freshBuckets (events : List Event) (summary : List Bucket)
    (ps pe : GoTime) : List Bucket :=
  ((usersInWindow events ps pe).filter
      (fun u => !(summary.any (bucketKeyIs u ps)))).map
    (fun u => ⟨u, ps, pe, windowCount events u ps pe⟩)

/-- `service.AggregateEvents`: with `period_end = now` (the `time.Now().UTC()`
reading of the tick) and `period_start = period_end - seconds`, the upsert
`INSERT INTO user_event_counts (user_id, period_start, period_end,
event_count) SELECT user_id, $1, $2, COUNT(*) FROM events WHERE created_at
>= $1 AND created_at < $2 GROUP BY user_id ON CONFLICT (user_id,
period_start) DO UPDATE SET event_count = EXCLUDED.event_count` — existing
rows are updated per `updateBucket`, and grouped rows whose key is not yet
present are inserted per `freshBuckets`. -/
def AggregateEvents (now : GoTime) (seconds : Nat) (events : List Event)
    (summary : List Bucket) : List Bucket :=
  let pe := now
  let ps := now.subSec seconds
  summary.map (updateBucket events ps pe) ++ freshBuckets events summary ps pe

/-- First summary row with the given primary key, if any. -/
def findBucket (summary : List Bucket) (u : Int) (ps : GoTime) :
    Option Bucket :=
  summary.find? (bucketKeyIs u ps)

/-- The decoded JSON body of a create-event request (routes.go
`AddEventRequest`); the metadata map is an association list, with `nil`
represented by the empty list. -/
structure AddEventRequest where
  user_id : Int
  action : String
  metadata : List (String × String)
deriving DecidableEq, Repr

/-- `AddEventRequest.Validate` from routes.go: returns the error message, or
`none` on success. -/
def AddEventRequest.Validate (a : AddEventRequest) : Option String :=
  if a.user_id ≤ 0 then some "user_id must be a positive integer"
  else if a.action = "" then some "action is required"
  else none

/-- Gin `c.ShouldBindJSON` applied to `AddEventRequest`: fails when the body
is not decodable JSON (modelled as `none`), and otherwise enforces the
struct's `binding:"required"` tags, which reject a zero-value `UserID`
(missing or `0`) and a zero-value `Action` (missing or empty). -/
def shouldBindJSON (body : Option AddEventRequest) :
    Except String AddEventRequest :=
  match body with
  | none => .error "json decode error"
  | some r =>
    if r.user_id = 0 then .error "Field validation for UserID failed on the required tag"
    else if r.action = "" then .error "Field validation for Action failed on the required tag"
    else .ok r

/-- Response bodies the two handlers can produce. -/
inductive RespBody where
  | empty
  | errorObj (error details : String)
  | errorOnly (error : String)
  | eventsJson (events : List Event)
deriving DecidableEq, Repr

/-- An HTTP response: status code and body. -/
structure HttpResponse where
  status : Nat
  body : RespBody
deriving DecidableEq, Repr

/-- `Server.AddEventHandler` from routes.go, as a function of the decoded
request body and of the store's answer to `InsertEvent`; the second
component counts how many times the handler invoked the store's insert. -/
def AddEventHandler (body : Option AddEventRequest)
    (insertResult : Except String Int) : HttpResponse × Nat :=
  match shouldBindJSON body with
  | .error d => (⟨400, .errorObj "invalid request" d⟩, 0)
  | .ok req =>
    match req.Validate with
    | some d => (⟨400, .errorObj "validation failed" d⟩, 0)
    | none =>
      match insertResult with
      | .error _ => (⟨500, .errorOnly "failed to insert event"⟩, 1)
      | .ok _ => (⟨201, .empty⟩, 1)

/-- Render a `TimeParseError` the way `parseTimeFlexible` reports it. -/
def TimeParseError.msg : TimeParseError → String
  | .empty m => m
  | .unrecognized => "unrecognized time format"

/-- Timestamp portion of `GetEventsRequest.Validate` from routes.go: an
empty `from` fails, both timestamps must parse with `parseTimeFlexible`,
and a `from` strictly after `to` (`start.After(*end)`) fails. -/
def GetEventsRequest.validateTimes (fromS toS : List Char) :
    Except String (GoTime × GoTime) :=
  if fromS = [] then .error "from paramater"
  else
    match parseTimeFlexible fromS with
    | .error e => .error ("invalid from parameter: " ++ e.msg)
    | .ok start =>
      match parseTimeFlexible toS with
      | .error e => .error ("invalid to parameter: " ++ e.msg)
      | .ok stop =>
        if stop.toNanos < start.toNanos then
          .error "from must be before or equal to to"
        else .ok (start, stop)

/-- The user-id guard of `GetEventsRequest.Validate`, followed by the
timestamp checks of `GetEventsRequest.validateTimes`. -/
def GetEventsRequest.Validate (userID : Option Int) (fromS toS : List Char) :
    Except String (GoTime × GoTime) :=
  match userID with
  | some u =>
    if u ≤ 0 then .error "user_id must be a positive integer"
    else GetEventsRequest.validateTimes fromS toS
  | none => GetEventsRequest.validateTimes fromS toS

/-- `Server.GetEventsHandler` from routes.go, as a function of the raw query
parameters and of the store's answer to `GetEvents`; the second component
counts how many times the handler invoked the store's query. -/
def GetEventsHandler (userIdParam fromS toS : List Char)
    (queryResult : Except String (List Event)) : HttpResponse × Nat :=
  match (if userIdParam = [] then some none
         else match goParseInt userIdParam with
              | none => none
              | some u => some (some u)) with
  | none => (⟨400, .errorOnly "invalid user_id"⟩, 0)
  | some userID =>
    match GetEventsRequest.Validate userID fromS toS with
    | .error d => (⟨400, .errorObj "invalid time format" d⟩, 0)
    | .ok _ =>
      match queryResult with
      | .error _ => (⟨500, .errorOnly "failed to fetch events"⟩, 1)
      | .ok events => (⟨200, .eventsJson events⟩, 1)

/-- The interval selection of `aggregator.New`: the value of
`AGGREGATION_INTERVAL_SECONDS` (the empty string when unset), defaulting to
60; a value `strconv.Atoi` parses to a non-positive integer makes `New`
return an error, while an unparseable value is only logged as a warning and
the default is kept. -/
def aggregatorNewInterval (env : List Char) : Except String Nat :=
  if env = [] then .ok 60
  else
    match goAtoi env with
    | some v =>
      if v ≤ 0 then .error "invalid range number of AGGREGATION_INTERVAL_SECONDS: must be positive integer"
      else .ok v.toNat
    | none => .ok 60

/-! Theorems.  Each claim of the specification is settled by exactly one
theorem below, with witnesses instantiating the quantified statements at
concrete inputs. -/

/-- C8 (counterexample): setting `AGGREGATION_INTERVAL_SECONDS` to `abc` —
a value that is not a positive integer (`strconv.Atoi` rejects it) — does
not make initialization fail: `aggregator.New` keeps the default of 60
seconds, contradicting the claim that initialization fails whenever the
configured interval is not a positive integer. -/
theorem C8_counterexample :
    aggregatorNewInterval ("abc".toList) = .ok 60 ∧
      goAtoi ("abc".toList) = none := by
  exact ⟨rfl, by decide⟩

/-- C8 (amended): the interval defaults to 60 when the variable is unset or
empty; initialization fails exactly when the value parses as an integer
that is not positive; a value `strconv.Atoi` cannot parse is ignored with a
warning and the default 60 is kept. -/
theorem C8_aggregator_interval (env : List Char) :
    (env = [] → aggregatorNewInterval env = .ok 60) ∧
    (∀ v : Int, goAtoi env = some v → v ≤ 0 →
      ∃ m, aggregatorNewInterval env = .error m) ∧
    (∀ v : Int, goAtoi env = some v → 0 < v →
      aggregatorNewInterval env = .ok v.toNat) ∧
    (env ≠ [] → goAtoi env = none → aggregatorNewInterval env = .ok 60) := by
  refine ⟨?_, ?_, ?_, ?_⟩
  · intro h
    simp [aggregatorNewInterval, h]
  · intro v hv hle
    have hne : env ≠ [] := by
      intro h
      rw [h, show goAtoi ([] : List Char) = none from by decide] at hv
      exact Option.noConfusion hv
    refine ⟨"invalid range number of AGGREGATION_INTERVAL_SECONDS: must be positive integer", ?_⟩
    simp [aggregatorNewInterval, hne, hv, hle]
  · intro v hv hpos
    have hne : env ≠ [] := by
      intro h
      rw [h, show goAtoi ([] : List Char) = none from by decide] at hv
      exact Option.noConfusion hv
    have : ¬ v ≤ 0 := by omega
    simp [aggregatorNewInterval, hne, hv, this]
  · intro hne hv
    simp [aggregatorNewInterval, hne, hv]

/-- C8 (witness): the amended statement evaluated on four concrete
environment values. -/
theorem C8_witness :
    aggregatorNewInterval [] = .ok 60 ∧
    (∃ m, aggregatorNewInterval ("-5".toList) = .error m) ∧
    aggregatorNewInterval ("30".toList) = .ok 30 ∧
    aggregatorNewInterval ("zzz".toList) = .ok 60 := by
  refine ⟨(C8_aggregator_interval []).1 rfl,
    (C8_aggregator_interval ("-5".toList)).2.1 (-5) (by decide) (by decide),
    ?_,
    (C8_aggregator_interval ("zzz".toList)).2.2.2 (by decide) (by decide)⟩
  exact (C8_aggregator_interval ("30".toList)).2.2.1 30 (by decide) (by decide)

/-- C4 (counterexample): the JSON body `{"user_id": 0, "action": "click"}`
decodes, and the claim says a decoded body with `user_id <= 0` fails with
the validation error; but gin's `binding:"required"` tag rejects the
zero-value `UserID` inside `ShouldBindJSON`, so the handler answers with
the malformed-request error (`"invalid request"`), a class the claim itself
distinguishes from validation failure (`"validation failed"`). -/
theorem C4_counterexample :
    AddEventHandler (some ⟨0, "click", []⟩) (.ok 1)
      = (⟨400, .errorObj "invalid request"
          "Field validation for UserID failed on the required tag"⟩, 0)
    ∧ "invalid request" ≠ "validation failed" := by
  exact ⟨rfl, by decide⟩

/-- C4 (amended): an undecodable body fails with the malformed-request
error; a decoded body with `user_id = 0` or empty `action` is rejected by
the binding layer's `required` tags, also with the malformed-request error;
a decoded body with `user_id < 0` and non-empty `action` fails with the
validation error; and in every one of these failing cases the store's
insert is never invoked. -/
theorem C4_add_event_error_paths (body : Option AddEventRequest)
    (insertResult : Except String Int) :
    (body = none →
      AddEventHandler body insertResult
        = (⟨400, .errorObj "invalid request" "json decode error"⟩, 0)) ∧
    (∀ r : AddEventRequest, body = some r → r.user_id = 0 ∨ r.action = "" →
      ∃ d, AddEventHandler body insertResult
        = (⟨400, .errorObj "invalid request" d⟩, 0)) ∧
    (∀ r : AddEventRequest, body = some r → r.user_id < 0 → r.action ≠ "" →
      AddEventHandler body insertResult
        = (⟨400, .errorObj "validation failed"
            "user_id must be a positive integer"⟩, 0)) := by
  refine ⟨?_, ?_, ?_⟩
  · intro h
    simp [AddEventHandler, shouldBindJSON, h]
  · intro r hb hor
    subst hb
    by_cases h0 : r.user_id = 0
    · exact ⟨"Field validation for UserID failed on the required tag",
        by simp [AddEventHandler, shouldBindJSON, h0]⟩
    · have ha : r.action = "" := hor.resolve_left h0
      exact ⟨"Field validation for Action failed on the required tag",
        by simp [AddEventHandler, shouldBindJSON, h0, ha]⟩
  · intro r hb hneg ha
    subst hb
    have h0 : ¬ r.user_id = 0 := by omega
    have hle : r.user_id ≤ 0 := by omega
    simp [AddEventHandler, shouldBindJSON, AddEventRequest.Validate, h0, ha,
      hle]

/-- C4 (witness): the three error paths of the amended statement evaluated
on concrete request bodies. -/
theorem C4_witness :
    AddEventHandler none (.ok 1)
      = (⟨400, .errorObj "invalid request" "json decode error"⟩, 0) ∧
    (∃ d, AddEventHandler (some ⟨3, "", []⟩) (.ok 1)
      = (⟨400, .errorObj "invalid request" d⟩, 0)) ∧
    AddEventHandler (some ⟨-1, "click", []⟩) (.ok 1)
      = (⟨400, .errorObj "validation failed"
          "user_id must be a positive integer"⟩, 0) := by
  refine ⟨(C4_add_event_error_paths none (.ok 1)).1 rfl, ?_, ?_⟩
  · exact (C4_add_event_error_paths (some ⟨3, "", []⟩) (.ok 1)).2.1
      ⟨3, "", []⟩ rfl (Or.inr rfl)
  · exact (C4_add_event_error_paths (some ⟨-1, "click", []⟩) (.ok 1)).2.2
      ⟨-1, "click", []⟩ rfl (by decide) (by decide)

/-- C7: a well-formed creation request (`user_id > 0`, non-empty `action`)
whose insert succeeds invokes the store's insert exactly once and is
answered with status 201 (the "created" class) and an empty body — in
particular the generated id `newId` does not occur in the response. -/
theorem C7_add_event_success (r : AddEventRequest) (newId : Int)
    (hu : 0 < r.user_id) (ha : r.action ≠ "") :
    AddEventHandler (some r) (.ok newId) = (⟨201, .empty⟩, 1) := by
  have h0 : ¬ r.user_id = 0 := by omega
  have hle : ¬ r.user_id ≤ 0 := by omega
  simp [AddEventHandler, shouldBindJSON, AddEventRequest.Validate, h0, ha,
    hle]

/-- C7 (witness): the success path on a concrete request. -/
theorem C7_witness :
    AddEventHandler (some ⟨7, "click", [("page", "home")]⟩) (.ok 42)
      = (⟨201, .empty⟩, 1) :=
  C7_add_event_success ⟨7, "click", [("page", "home")]⟩ 42 (by decide)
    (by decide)

/-- C10: a non-empty `user_id` query parameter that `strconv.ParseInt`
rejects is answered with a 400 client error regardless of the `from`/`to`
parameters — no timestamp validation or parsing takes place — and the
store's query is never invoked. -/
theorem C10_get_events_bad_user_id (v fromS toS : List Char)
    (queryResult : Except String (List Event))
    (hne : v ≠ []) (hbad : goParseInt v = none) :
    GetEventsHandler v fromS toS queryResult
      = (⟨400, .errorOnly "invalid user_id"⟩, 0) := by
  simp [GetEventsHandler, hne, hbad]

/-- C10 (witness): concrete unparseable user id, with `from`/`to` values
that would themselves be rejected had parsing been attempted. -/
theorem C10_witness :
    GetEventsHandler ("12abc".toList) ("2025-01-01".toList)
      ("not-a-time".toList) (.ok [])
      = (⟨400, .errorOnly "invalid user_id"⟩, 0) :=
  C10_get_events_bad_user_id _ _ _ _ (by decide) (by decide)

/-- C5: once a provided `user_id` parses, a non-positive value is rejected;
once both timestamps parse, an inverted range (`from` strictly after `to`)
is rejected; equal bounds pass validation and reach the store; and in both
failing cases the store's query is never invoked (the invocation count is
0). -/
theorem C5_get_events_range_validation (userIdParam fromS toS : List Char)
    (queryResult : Except String (List Event)) :
    (∀ u : Int, userIdParam ≠ [] → goParseInt userIdParam = some u → u ≤ 0 →
      GetEventsHandler userIdParam fromS toS queryResult
        = (⟨400, .errorObj "invalid time format"
            "user_id must be a positive integer"⟩, 0)) ∧
    (∀ s e : GoTime,
      (userIdParam = [] ∨ ∃ u : Int, goParseInt userIdParam = some u ∧ 0 < u) →
      parseTimeFlexible fromS = .ok s → parseTimeFlexible toS = .ok e →
      e.toNanos < s.toNanos →
      GetEventsHandler userIdParam fromS toS queryResult
        = (⟨400, .errorObj "invalid time format"
            "from must be before or equal to to"⟩, 0)) ∧
    (∀ s e : GoTime,
      (userIdParam = [] ∨ ∃ u : Int, goParseInt userIdParam = some u ∧ 0 < u) →
      parseTimeFlexible fromS = .ok s → parseTimeFlexible toS = .ok e →
      s = e →
      (GetEventsHandler userIdParam fromS toS queryResult).2 = 1) := by
  have hfne : ∀ s : GoTime, parseTimeFlexible fromS = .ok s → fromS ≠ [] := by
    intro s hs h
    rw [h] at hs
    simp [parseTimeFlexible] at hs
  refine ⟨?_, ?_, ?_⟩
  · intro u hne hu hle
    simp [GetEventsHandler, hne, hu, GetEventsRequest.Validate, hle]
  · intro s e huid hfrom hto hlt
    have hne := hfne s hfrom
    have hvt : GetEventsRequest.validateTimes fromS toS
        = .error "from must be before or equal to to" := by
      simp [GetEventsRequest.validateTimes, hne, hfrom, hto, hlt]
    rcases huid with h | ⟨u, hu, hupos⟩
    · simp [GetEventsHandler, h, GetEventsRequest.Validate, hvt]
    · have hpne : userIdParam ≠ [] := by
        intro hnil
        rw [hnil, show goParseInt ([] : List Char) = none from by decide] at hu
        exact Option.noConfusion hu
      have hule : ¬ u ≤ 0 := by omega
      simp [GetEventsHandler, hpne, hu, GetEventsRequest.Validate, hule, hvt]
  · intro s e huid hfrom hto heq
    have hne := hfne s hfrom
    have hnlt : ¬ e.toNanos < s.toNanos := by
      rw [heq]
      exact lt_irrefl _
    have hvt : GetEventsRequest.validateTimes fromS toS = .ok (s, e) := by
      simp [GetEventsRequest.validateTimes, hne, hfrom, hto, hnlt]
    rcases huid with h | ⟨u, hu, hupos⟩
    · cases queryResult with
      | error msg => simp [GetEventsHandler, h, GetEventsRequest.Validate, hvt]
      | ok evs => simp [GetEventsHandler, h, GetEventsRequest.Validate, hvt]
    · have hpne : userIdParam ≠ [] := by
        intro hnil
        rw [hnil, show goParseInt ([] : List Char) = none from by decide] at hu
        exact Option.noConfusion hu
      have hule : ¬ u ≤ 0 := by omega
      cases queryResult with
      | error msg =>
        simp [GetEventsHandler, hpne, hu, GetEventsRequest.Validate, hule, hvt]
      | ok evs =>
        simp [GetEventsHandler, hpne, hu, GetEventsRequest.Validate, hule, hvt]

/-- C5 (witness): the three conjuncts evaluated at concrete query
parameters: a non-positive user id, an inverted range, and equal bounds. -/
theorem C5_witness :
    GetEventsHandler ("-1".toList) ("2025-01-01".toList)
      ("2025-01-02".toList) (.ok [])
      = (⟨400, .errorObj "invalid time format"
          "user_id must be a positive integer"⟩, 0) ∧
    GetEventsHandler [] ("2025-01-02".toList) ("2025-01-01".toList) (.ok [])
      = (⟨400, .errorObj "invalid time format"
          "from must be before or equal to to"⟩, 0) ∧
    (GetEventsHandler [] ("2025-01-01".toList) ("2025-01-01".toList)
      (.ok [])).2 = 1 := by
  refine ⟨?_, ?_, ?_⟩
  · exact (C5_get_events_range_validation ("-1".toList) ("2025-01-01".toList)
      ("2025-01-02".toList) (.ok [])).1 (-1) (by decide) (by decide)
      (by decide)
  · exact (C5_get_events_range_validation [] ("2025-01-02".toList)
      ("2025-01-01".toList) (.ok [])).2.1 ⟨1735776000, 0⟩ ⟨1735689600, 0⟩
      (Or.inl rfl) (by decide) (by decide) (by decide)
  · exact (C5_get_events_range_validation [] ("2025-01-01".toList)
      ("2025-01-01".toList) (.ok [])).2.2 ⟨1735689600, 0⟩ ⟨1735689600, 0⟩
      (Or.inl rfl) (by decide) (by decide) rfl

/-- C6: only the `page` key of the metadata map is persisted.  The table
produced by an insert depends on the metadata only through its `page`
binding — so any two metadata maps agreeing on `page` yield identical
tables, and hence identical answers to every subsequent query — the stored
row's `metadata_page` is exactly the `page` lookup, and the concrete
round trip of the claim: inserting with `{page: X, other: Y}` and querying
the row back yields `metadata_page = X`, the table being the same as if
`other` had never been sent. -/
theorem C6_metadata_projection (tbl : List Event) (newId : Int)
    (now : GoTime) (uid : Int) (action : String)
    (meta meta' : List (String × String))
    (h : meta.lookup "page" = meta'.lookup "page") :
    InsertEvent tbl newId now uid action meta
      = InsertEvent tbl newId now uid action meta' ∧
    InsertEvent tbl newId now uid action meta
      = tbl ++ [⟨newId, uid, action, meta.lookup "page", now⟩] ∧
    GetEvents (InsertEvent [] 1 now 1 "click" [("page", "X"), ("other", "Y")])
        (some 1) (some now) (some now)
      = [⟨1, 1, "click", some "X", now⟩] ∧
    InsertEvent [] 1 now 1 "click" [("page", "X"), ("other", "Y")]
      = InsertEvent [] 1 now 1 "click" [("page", "X")] := by
  refine ⟨?_, rfl, ?_, ?_⟩
  · unfold InsertEvent
    rw [h]
  · simp [GetEvents, InsertEvent, eventMatches, sortDesc, insertDesc,
      List.filter]
  · rfl

/-- C6 (witness): the metadata-irrelevance conjunct at a concrete state. -/
theorem C6_witness :
    InsertEvent [] 1 ⟨0, 0⟩ 5 "view" [("page", "X"), ("other", "Y")]
      = InsertEvent [] 1 ⟨0, 0⟩ 5 "view" [("page", "X")] :=
  (C6_metadata_projection [] 1 ⟨0, 0⟩ 5 "view"
    [("page", "X"), ("other", "Y")] [("page", "X")] (by decide)).1

theorem insertDesc_perm (e : Event) (l : List Event) :
    (insertDesc e l).Perm (e :: l) := by
  induction l with
  | nil => exact List.Perm.refl _
  | cons x xs ih =>
    unfold insertDesc
    split
    · exact (ih.cons x).trans (List.Perm.swap e x xs)
    · exact List.Perm.refl _

theorem mem_insertDesc {y : Event} {e : Event} {l : List Event} :
    y ∈ insertDesc e l ↔ y = e ∨ y ∈ l := by
  rw [(insertDesc_perm e l).mem_iff]
  simp

theorem pairwise_insertDesc (e : Event) (l : List Event)
    (h : l.Pairwise
      (fun a b => b.created_at.toNanos ≤ a.created_at.toNanos)) :
    (insertDesc e l).Pairwise
      (fun a b => b.created_at.toNanos ≤ a.created_at.toNanos) := by
  induction l with
  | nil => simp [insertDesc]
  | cons x xs ih =>
    rw [List.pairwise_cons] at h
    obtain ⟨hx, hxs⟩ := h
    unfold insertDesc
    split
    · rename_i hc
      rw [List.pairwise_cons]
      refine ⟨?_, ih hxs⟩
      intro y hy
      rcases mem_insertDesc.1 hy with rfl | hmem
      · exact hc
      · exact hx y hmem
    · rename_i hc
      push_neg at hc
      rw [List.pairwise_cons]
      refine ⟨?_, ?_⟩
      · intro y hy
        rcases List.mem_cons.1 hy with rfl | hmem
        · exact le_of_lt hc
        · exact le_trans (hx y hmem) (le_of_lt hc)
      · rw [List.pairwise_cons]
        exact ⟨hx, hxs⟩

theorem sortDesc_perm (l : List Event) : (sortDesc l).Perm l := by
  induction l with
  | nil => exact List.Perm.refl _
  | cons x xs ih => exact (insertDesc_perm x (sortDesc xs)).trans (ih.cons x)

theorem pairwise_sortDesc (l : List Event) :
    (sortDesc l).Pairwise
      (fun a b => b.created_at.toNanos ≤ a.created_at.toNanos) := by
  induction l with
  | nil => simp [sortDesc]
  | cons x xs ih => exact pairwise_insertDesc x (sortDesc xs) ih

/-- C2: `GetEvents` with both bounds supplied returns exactly (up to the
order imposed by the sort) the stored rows whose `created_at` lies in the
closed interval `[s, e]` and whose `user_id` equals the given one when one
is given (a `none` user id matches every row; the filters compose
conjunctively); the result is ordered by `created_at` descending; and when
nothing matches the result is the empty list, not an error. -/
theorem C2_get_events (tbl : List Event) (userID : Option Int)
    (s e : GoTime) :
    (GetEvents tbl userID (some s) (some e)).Perm
        (tbl.filter (eventMatches userID (some s) (some e))) ∧
    (∀ ev : Event, ev ∈ GetEvents tbl userID (some s) (some e) ↔
      ev ∈ tbl ∧ s.toNanos ≤ ev.created_at.toNanos ∧
        ev.created_at.toNanos ≤ e.toNanos ∧
        (∀ u : Int, userID = some u → ev.user_id = u)) ∧
    (GetEvents tbl userID (some s) (some e)).Pairwise
      (fun a b => b.created_at.toNanos ≤ a.created_at.toNanos) ∧
    ((∀ ev ∈ tbl, eventMatches userID (some s) (some e) ev = false) →
      GetEvents tbl userID (some s) (some e) = []) := by
  have hmem : ∀ ev : Event, ev ∈ GetEvents tbl userID (some s) (some e) ↔
      ev ∈ tbl ∧ eventMatches userID (some s) (some e) ev = true := by
    intro ev
    exact ((sortDesc_perm _).mem_iff).trans List.mem_filter
  refine ⟨sortDesc_perm _, ?_, pairwise_sortDesc _, ?_⟩
  · intro ev
    rw [hmem ev]
    cases userID with
    | none => simp [eventMatches]
    | some u =>
      simp only [eventMatches, Bool.and_eq_true, decide_eq_true_eq,
        Option.some.injEq, forall_eq']
      tauto
  · intro hnone
    have : tbl.filter (eventMatches userID (some s) (some e)) = [] := by
      rw [List.filter_eq_nil_iff]
      intro a ha
      rw [hnone a ha]
      exact Bool.false_ne_true
    unfold GetEvents
    rw [this]
    rfl

/-- C2 (witness): a store holding one row for user 2: a query for user 1
over a window containing the row matches nothing and returns the empty
list. -/
theorem C2_witness :
    GetEvents [⟨1, 2, "a", none, ⟨5, 0⟩⟩] (some 1) (some ⟨0, 0⟩)
      (some ⟨10, 0⟩) = [] :=
  (C2_get_events [⟨1, 2, "a", none, ⟨5, 0⟩⟩] (some 1) ⟨0, 0⟩
    ⟨10, 0⟩).2.2.2 (by decide)

/-- C9: when a round of URL-decoding fails, the unescape loop stops
silently at the string decoded so far (first conjunct, for the loop at any
remaining fuel); in particular when the very first decode of a non-empty
input fails, parsing proceeds on the input itself — the outcome is exactly
the trim-then-try-layouts of the undecoded string, so a decode failure by
itself never makes the parse fail: the parse fails only if the trimmed
string is empty or matches no layout. -/
theorem C9_decode_failure_tolerant :
    (∀ (fuel : Nat) (w : List Char), QueryUnescape w = none →
      decodeLoop fuel w = w) ∧
    (∀ v : List Char, v ≠ [] → QueryUnescape v = none →
      parseTimeFlexible v =
        (if TrimSpace v = [] then .error (.empty "empty time after unescape")
         else
           match firstSuccess layouts (TrimSpace v) with
           | some t => .ok t
           | none => .error .unrecognized)) := by
  have hloop : ∀ (fuel : Nat) (w : List Char), QueryUnescape w = none →
      decodeLoop fuel w = w := by
    intro fuel w hw
    cases fuel with
    | zero => rfl
    | succ n => simp [decodeLoop, hw]
  refine ⟨hloop, ?_⟩
  intro v hv hfail
  rw [parseTimeFlexible, if_neg hv, hloop 3 v hfail]

/-- C9 (witness): a valid date followed by an undecodable percent sequence:
the loop stops at the original string, and the parse fails only because no
layout matches that string, not because of the decode error. -/
theorem C9_witness :
    decodeLoop 3 ("2025-01-01%zz".toList) = "2025-01-01%zz".toList ∧
    parseTimeFlexible ("2025-01-01%zz".toList)
      = (if TrimSpace ("2025-01-01%zz".toList) = []
         then .error (.empty "empty time after unescape")
         else
           match firstSuccess layouts (TrimSpace ("2025-01-01%zz".toList)) with
           | some t => .ok t
           | none => .error .unrecognized) :=
  ⟨C9_decode_failure_tolerant.1 3 ("2025-01-01%zz".toList) (by decide),
   C9_decode_failure_tolerant.2 ("2025-01-01%zz".toList) (by decide)
     (by decide)⟩

/-- The layout order as the specification words it: RFC 3339 with optional
fractional seconds first, then RFC 3339, then the three zone-less layouts.
`time.Parse` accepts an optional fractional second under both RFC 3339
layouts, so this order and the source's order are the same function. -/
def claimLayouts : List Layout :=
  [.rfc3339Nano, .rfc3339, .dateSpaceTime, .dateTTime, .dateOnly]

theorem firstSuccess_nil (ls : List Layout) : firstSuccess ls [] = none := by
  induction ls with
  | nil => rfl
  | cons l ls ih =>
    cases l <;> simp [firstSuccess, parseRFC3339, parseDateTimeNoZone,
      parseDateOnly, goTimeParse, parseDatePart, num4, ih]

theorem firstSuccess_claim_order (s : List Char) :
    firstSuccess claimLayouts s = firstSuccess layouts s := by
  simp only [claimLayouts, layouts, firstSuccess, goTimeParse]

theorem parseTimeFlexible_eq (v : List Char) (hv : v ≠ []) :
    parseTimeFlexible v =
      (if TrimSpace (decodeLoop 3 v) = []
       then .error (.empty "empty time after unescape")
       else
         match firstSuccess layouts (TrimSpace (decodeLoop 3 v)) with
         | some t => .ok t
         | none => .error .unrecognized) := by
  rw [parseTimeFlexible, if_neg hv]

/-- C3: flexible timestamp parsing is the composition the claim describes:
URL-decode up to three times (stopping at a failure or fixpoint), trim
whitespace, fail on an empty remainder, then return the first success of
the ordered layout list — here stated with the claim's order
(`claimLayouts`: RFC 3339 with optional fractional seconds, RFC 3339,
date-space-time, date-T-time, date-only) — failing with the unrecognized
error when no layout matches; and the double-URL-encoded form of
`2025-01-01T00:00:00Z` (colons escaped twice) parses to the same instant
as the unencoded form. -/
theorem C3_parse_time_flexible (v : List Char) :
    (∀ t : GoTime, parseTimeFlexible v = .ok t ↔
      firstSuccess claimLayouts (TrimSpace (decodeLoop 3 v)) = some t) ∧
    (TrimSpace (decodeLoop 3 v) = [] →
      ∃ m, parseTimeFlexible v = .error (.empty m)) ∧
    (TrimSpace (decodeLoop 3 v) ≠ [] →
      firstSuccess claimLayouts (TrimSpace (decodeLoop 3 v)) = none →
      parseTimeFlexible v = .error .unrecognized) ∧
    parseTimeFlexible ("2025-01-01T00%253A00%253A00Z".toList)
      = parseTimeFlexible ("2025-01-01T00:00:00Z".toList) ∧
    parseTimeFlexible ("2025-01-01T00:00:00Z".toList)
      = .ok ⟨1735689600, 0⟩ := by
  refine ⟨?_, ?_, ?_, by decide, by decide⟩
  · intro t
    rw [firstSuccess_claim_order]
    by_cases hv : v = []
    · subst hv
      rw [show decodeLoop 3 ([] : List Char) = [] from rfl]
      simp [parseTimeFlexible, TrimSpace, firstSuccess_nil]
    · rw [parseTimeFlexible_eq v hv]
      by_cases huv : TrimSpace (decodeLoop 3 v) = []
      · simp [huv, firstSuccess_nil]
      · rw [if_neg huv]
        cases hfs : firstSuccess layouts (TrimSpace (decodeLoop 3 v)) with
        | some t0 => simp
        | none => simp
  · intro huv
    by_cases hv : v = []
    · exact ⟨"empty time string", by rw [hv]; rfl⟩
    · exact ⟨"empty time after unescape",
        by rw [parseTimeFlexible_eq v hv, if_pos huv]⟩
  · intro huv hfs
    rw [firstSuccess_claim_order] at hfs
    have hv : v ≠ [] := by
      intro h
      exact huv (by rw [h]; rfl)
    rw [parseTimeFlexible_eq v hv, if_neg huv, hfs]

/-- C3 (witness): the structural conjuncts evaluated on concrete inputs:
a successfully parsed date-only string, an all-whitespace string, and a
string matching no layout. -/
theorem C3_witness :
    (parseTimeFlexible ("2025-06-15".toList) = .ok ⟨1749945600, 0⟩ ↔
      firstSuccess claimLayouts
        (TrimSpace (decodeLoop 3 ("2025-06-15".toList)))
        = some ⟨1749945600, 0⟩) ∧
    (∃ m, parseTimeFlexible ("   ".toList) = .error (.empty m)) ∧
    parseTimeFlexible ("not-a-time".toList) = .error .unrecognized := by
  refine ⟨(C3_parse_time_flexible ("2025-06-15".toList)).1 ⟨1749945600, 0⟩,
    (C3_parse_time_flexible ("   ".toList)).2.1 (by decide),
    (C3_parse_time_flexible ("not-a-time".toList)).2.2.1 (by decide)
      (by decide)⟩

theorem bucketKeyIs_updateBucket (events : List Event) (ps pe ps' : GoTime)
    (u : Int) (b : Bucket) :
    bucketKeyIs u ps' (updateBucket events ps pe b) = bucketKeyIs u ps' b := by
  cases b
  unfold updateBucket
  split <;> rfl

theorem find?_map_updateBucket (events : List Event) (ps pe ps' : GoTime)
    (u : Int) (summary : List Bucket) :
    (summary.map (updateBucket events ps pe)).find? (bucketKeyIs u ps')
      = (summary.find? (bucketKeyIs u ps')).map (updateBucket events ps pe) := by
  induction summary with
  | nil => rfl
  | cons b l ih =>
    simp only [List.map_cons]
    cases hp : bucketKeyIs u ps' b with
    | true =>
      rw [List.find?_cons_of_pos _ (by rw [bucketKeyIs_updateBucket]; exact hp),
        List.find?_cons_of_pos _ hp]
      rfl
    | false =>
      rw [List.find?_cons_of_neg _ (by rw [bucketKeyIs_updateBucket, hp]; simp),
        List.find?_cons_of_neg _ (by rw [hp]; simp), ih]

theorem any_map_updateBucket (events : List Event) (ps pe ps' : GoTime)
    (u : Int) (summary : List Bucket) :
    (summary.map (updateBucket events ps pe)).any (bucketKeyIs u ps')
      = summary.any (bucketKeyIs u ps') := by
  rw [List.any_map]
  induction summary with
  | nil => rfl
  | cons b l ih =>
    simp only [List.any_cons, ih, Function.comp_apply,
      bucketKeyIs_updateBucket]

theorem bucketKeyIs_freshRow (events : List Event) (ps pe : GoTime)
    (u u' : Int) :
    bucketKeyIs u ps (⟨u', ps, pe, windowCount events u' ps pe⟩ : Bucket)
      = decide (u' = u) := by
  simp [bucketKeyIs]

theorem find?_map_eq_of_mem (us : List Int) (u : Int) (hmem : u ∈ us)
    (g : Int → Bucket) (p : Bucket → Bool)
    (hp : ∀ u' : Int, p (g u') = decide (u' = u)) :
    (us.map g).find? p = some (g u) := by
  induction us with
  | nil => cases hmem
  | cons x us ih =>
    simp only [List.map_cons]
    by_cases hx : x = u
    · subst hx
      rw [List.find?_cons_of_pos _ (by rw [hp]; simp)]
    · rw [List.find?_cons_of_neg _ (by rw [hp]; simp [hx])]
      exact ih ((List.mem_cons.1 hmem).resolve_left (fun h => hx h.symm))

theorem updateBucket_idem (events : List Event) (ps pe : GoTime)
    (b : Bucket) :
    updateBucket events ps pe (updateBucket events ps pe b)
      = updateBucket events ps pe b := by
  cases b
  unfold updateBucket
  dsimp only
  split
  · rename_i h
    simp only [if_pos h]
  · rename_i h
    simp only [if_neg h]

theorem updateBucket_freshRow (events : List Event) (ps pe : GoTime)
    (u : Int) (hu : u ∈ usersInWindow events ps pe) :
    updateBucket events ps pe (⟨u, ps, pe, windowCount events u ps pe⟩ : Bucket)
      = ⟨u, ps, pe, windowCount events u ps pe⟩ := by
  unfold updateBucket
  rw [if_pos ⟨rfl, hu⟩]

theorem upsert_fresh (events : List Event) (summary : List Bucket)
    (ps pe : GoTime) (u : Int) (hu : u ∈ usersInWindow events ps pe)
    (hnone : findBucket summary u ps = none) :
    findBucket (summary.map (updateBucket events ps pe)
        ++ freshBuckets events summary ps pe) u ps
      = some ⟨u, ps, pe, windowCount events u ps pe⟩ := by
  unfold findBucket at *
  rw [List.find?_append, find?_map_updateBucket, hnone]
  simp only [Option.map_none', Option.none_or]
  unfold freshBuckets
  have hq : u ∈ (usersInWindow events ps pe).filter
      (fun u' => !(summary.any (bucketKeyIs u' ps))) := by
    refine List.mem_filter.2 ⟨hu, ?_⟩
    have hanyf : summary.any (bucketKeyIs u ps) = false := by
      rw [List.any_eq_false]
      intro x hx
      exact List.find?_eq_none.mp hnone x hx
    rw [hanyf]
    rfl
  exact find?_map_eq_of_mem _ u hq _ _
    (fun u' => bucketKeyIs_freshRow events ps pe u u')

theorem upsert_conflict (events : List Event) (summary : List Bucket)
    (ps pe : GoTime) (u : Int) (b : Bucket)
    (hu : u ∈ usersInWindow events ps pe)
    (hsome : findBucket summary u ps = some b) :
    findBucket (summary.map (updateBucket events ps pe)
        ++ freshBuckets events summary ps pe) u ps
      = some { b with event_count := windowCount events u ps pe } := by
  have hkey := List.find?_some hsome
  have hbu : b.user_id = u ∧ b.period_start = ps := by
    simpa [bucketKeyIs] using hkey
  unfold findBucket at *
  rw [List.find?_append, find?_map_updateBucket, hsome]
  simp only [Option.map_some']
  have hupd : updateBucket events ps pe b
      = { b with event_count := windowCount events u ps pe } := by
    unfold updateBucket
    rw [if_pos ⟨hbu.2, by rw [hbu.1]; exact hu⟩, hbu.1]
  rw [hupd]
  rfl

theorem upsert_idem (events : List Event) (summary : List Bucket)
    (ps pe : GoTime) :
    (summary.map (updateBucket events ps pe)
        ++ freshBuckets events summary ps pe).map (updateBucket events ps pe)
      ++ freshBuckets events
          (summary.map (updateBucket events ps pe)
            ++ freshBuckets events summary ps pe) ps pe
    = summary.map (updateBucket events ps pe)
        ++ freshBuckets events summary ps pe := by
  have hmap1 : (summary.map (updateBucket events ps pe)).map
      (updateBucket events ps pe) = summary.map (updateBucket events ps pe) := by
    rw [List.map_map]
    exact List.map_congr_left (fun b _ => updateBucket_idem events ps pe b)
  have hmap2 : (freshBuckets events summary ps pe).map
      (updateBucket events ps pe) = freshBuckets events summary ps pe := by
    unfold freshBuckets
    rw [List.map_map]
    apply List.map_congr_left
    intro u' hu'
    exact updateBucket_freshRow events ps pe u' (List.mem_of_mem_filter hu')
  have hfresh2 : freshBuckets events
      (summary.map (updateBucket events ps pe)
        ++ freshBuckets events summary ps pe) ps pe = [] := by
    unfold freshBuckets
    rw [List.map_eq_nil_iff, List.filter_eq_nil_iff]
    intro u hu
    suffices h : (summary.map (updateBucket events ps pe)
        ++ freshBuckets events summary ps pe).any (bucketKeyIs u ps) = true by
      show ¬ ((!((summary.map (updateBucket events ps pe)
          ++ freshBuckets events summary ps pe).any (bucketKeyIs u ps)))
        = true)
      rw [h]
      decide
    rw [List.any_append, any_map_updateBucket]
    cases hany : summary.any (bucketKeyIs u ps) with
    | true => simp
    | false =>
      have hufil : u ∈ (usersInWindow events ps pe).filter
          (fun u' => !(summary.any (bucketKeyIs u' ps))) :=
        List.mem_filter.2 ⟨hu, by rw [hany]; rfl⟩
      have hf : (freshBuckets events summary ps pe).any
          (bucketKeyIs u ps) = true := by
        rw [List.any_eq_true]
        exact ⟨⟨u, ps, pe, windowCount events u ps pe⟩,
          List.mem_map_of_mem _ hufil,
          by rw [bucketKeyIs_freshRow]; simp⟩
      simp [hf]
  rw [List.map_append, hmap1, hmap2, hfresh2, List.append_nil]

/-- C1: one aggregation tick at clock reading `now` with interval `seconds`
uses the window `[now - seconds, now)` (`period_end = now`, `period_start =
period_end - seconds`, half-open on the right per `created_at >= $1 AND
created_at < $2`).  A `user_id` is grouped iff it has at least one event in
the window (first conjunct); for such a user with no existing bucket at
`(user_id, period_start)` the tick inserts exactly the row `(user_id,
period_start, period_end, count of its events in the window)` (second
conjunct); on a primary-key conflict the existing row keeps its fields and
has only `event_count` overwritten with that count (third conjunct); and
running the identical tick again over the unchanged events table leaves the
summary table exactly as it was — aggregation is idempotent per exact
window (fourth conjunct). -/
theorem C1_aggregate_tick (now : GoTime) (seconds : Nat)
    (events : List Event) (summary : List Bucket) :
    (∀ u : Int, u ∈ usersInWindow events (now.subSec seconds) now ↔
      ∃ ev ∈ events, ev.user_id = u ∧
        inWindow (now.subSec seconds) now ev = true) ∧
    (∀ u : Int, u ∈ usersInWindow events (now.subSec seconds) now →
      findBucket summary u (now.subSec seconds) = none →
      findBucket (AggregateEvents now seconds events summary) u
          (now.subSec seconds)
        = some ⟨u, now.subSec seconds, now,
            windowCount events u (now.subSec seconds) now⟩) ∧
    (∀ (u : Int) (b : Bucket),
      u ∈ usersInWindow events (now.subSec seconds) now →
      findBucket summary u (now.subSec seconds) = some b →
      findBucket (AggregateEvents now seconds events summary) u
          (now.subSec seconds)
        = some { b with
            event_count := windowCount events u (now.subSec seconds) now }) ∧
    AggregateEvents now seconds events
        (AggregateEvents now seconds events summary)
      = AggregateEvents now seconds events summary := by
  refine ⟨?_, ?_, ?_, ?_⟩
  · intro u
    unfold usersInWindow
    rw [List.mem_dedup, List.mem_map]
    constructor
    · rintro ⟨ev, hev, rfl⟩
      have h := List.mem_filter.1 hev
      exact ⟨ev, h.1, rfl, h.2⟩
    · rintro ⟨ev, hev, heq, hw⟩
      exact ⟨ev, List.mem_filter.2 ⟨hev, hw⟩, heq⟩
  · intro u hu hnone
    exact upsert_fresh events summary (now.subSec seconds) now u hu hnone
  · intro u b hu hsome
    exact upsert_conflict events summary (now.subSec seconds) now u b hu hsome
  · exact upsert_idem events summary (now.subSec seconds) now

/-- C1 (witness): three events of user 1 inside a 60-second window ending
at `now = 60s`: the tick writes the bucket `(1, 0s, 60s, 3)` into an empty
summary table, and re-running the identical tick leaves the table
unchanged instead of doubling the count. -/
theorem C1_witness :
    findBucket
        (AggregateEvents ⟨60, 0⟩ 60
          [⟨1, 1, "a", none, ⟨10, 0⟩⟩, ⟨2, 1, "b", none, ⟨20, 0⟩⟩,
            ⟨3, 1, "c", none, ⟨30, 0⟩⟩] [])
        1 ⟨0, 0⟩
      = some ⟨1, ⟨0, 0⟩, ⟨60, 0⟩, 3⟩ ∧
    AggregateEvents ⟨60, 0⟩ 60
        [⟨1, 1, "a", none, ⟨10, 0⟩⟩, ⟨2, 1, "b", none, ⟨20, 0⟩⟩,
          ⟨3, 1, "c", none, ⟨30, 0⟩⟩]
        (AggregateEvents ⟨60, 0⟩ 60
          [⟨1, 1, "a", none, ⟨10, 0⟩⟩, ⟨2, 1, "b", none, ⟨20, 0⟩⟩,
            ⟨3, 1, "c", none, ⟨30, 0⟩⟩] [])
      = AggregateEvents ⟨60, 0⟩ 60
          [⟨1, 1, "a", none, ⟨10, 0⟩⟩, ⟨2, 1, "b", none, ⟨20, 0⟩⟩,
            ⟨3, 1, "c", none, ⟨30, 0⟩⟩] [] := by
  constructor
  · have h := (C1_aggregate_tick ⟨60, 0⟩ 60
      [⟨1, 1, "a", none, ⟨10, 0⟩⟩, ⟨2, 1, "b", none, ⟨20, 0⟩⟩,
        ⟨3, 1, "c", none, ⟨30, 0⟩⟩] []).2.1 1 (by decide) rfl
    exact h
  · exact (C1_aggregate_tick ⟨60, 0⟩ 60
      [⟨1, 1, "a", none, ⟨10, 0⟩⟩, ⟨2, 1, "b", none, ⟨20, 0⟩⟩,
        ⟨3, 1, "c", none, ⟨30, 0⟩⟩] []).2.2.2
